import Mathlib

/-!
Verification development for the Accountability mobile client.

The definitions below are shallow embeddings of the client's utility
functions:

* `withRetry`            — the generic retry-with-backoff helper
                           (src/services/points-api.ts).
* `saveToCache` / `getFromCache` / `CACHE_EXPIRY`
                         — the TTL cache for the activities list endpoint
                           (src/services/points-api.ts).
* `useColorScheme`       — the module-level color-scheme hook
                           (src/services/dashboard.ts part).

JavaScript's dynamic values are embedded as the inductive type `JSVal`
(with a separate `nan` constructor, since `NaN` drives several of the
defensive checks); asynchronous effects are embedded by passing the
outcome of each awaited step explicitly (a call counter and the list of
back-off waits are returned alongside the result), and a thrown
JavaScript error is an `Except.error`.
-/

namespace Accountability

/-- Embedding of a JavaScript runtime value, restricted to the shapes the
client's utility code actually inspects.  `undef` is JavaScript
`undefined`, `nan` is the number `NaN` (kept separate from `num` so that
`isNaN` checks are by pattern match), numbers are embedded as integers. -/
inductive JSVal where
  | undef : JSVal
  | null : JSVal
  | num : Int → JSVal
  | nan : JSVal
  | str : String → JSVal
  | bool : Bool → JSVal
deriving DecidableEq, Repr

/-- JavaScript truthiness: `undefined`, `null`, `0`, `NaN`, the empty
string and `false` are falsy, everything else is truthy. -/
def truthy : JSVal → Bool
  | JSVal.undef => false
  | JSVal.null => false
  | JSVal.num n => n != 0
  | JSVal.nan => false
  | JSVal.str s => s != ""
  | JSVal.bool b => b

/-- JavaScript `a || b`: `a` when truthy, otherwise `b`. -/
def jsOr (a b : JSVal) : JSVal :=
  if truthy a then a else b

/-! ## Retry helper (`withRetry`, src/services/points-api.ts)

```ts
export const withRetry = async <T>(fn: () => Promise<T>, maxRetries = 3, delay = 1000): Promise<T> => {
  let lastError: any;
  for (let attempt = 1; attempt <= maxRetries; attempt++) {
    try {
      return await fn();
    } catch (error) {
      lastError = error;
      if (attempt < maxRetries) {
        await new Promise(resolve => setTimeout(resolve, delay * Math.pow(2, attempt - 1)));
      }
    }
  }
  throw lastError;
};
```

The async operation `fn` is embedded as a map from the attempt number
(1-based) to that invocation's outcome.  The embedding returns the
result (`Except.error none` models `throw undefined`, i.e. a never-set
`lastError`), the number of invocations of `fn`, and the list of
back-off waits (in milliseconds) performed between attempts, in order. -/

/-- Loop body of `withRetry`: `attempt` is the current 1-based attempt
number, the `Nat` argument is the number of loop iterations still
allowed (`maxRetries - attempt + 1`), and the `Option ε` argument is the
current `lastError` (`none` when no error has been caught yet).  A wait
of `delay * 2 ^ (attempt - 1)` is recorded only when a further attempt
remains (`attempt < maxRetries`). -/
def withRetryAux (fn : Nat → Except ε α) (delay : Nat) :
    Nat → Nat → Option ε → Except (Option ε) α × Nat × List Nat
  | _, 0, lastError => (Except.error lastError, 0, [])
  | attempt, remaining + 1, _ =>
    match fn attempt with
    | Except.ok v => (Except.ok v, 1, [])
    | Except.error e =>
      let waitsHead : List Nat :=
        if 0 < remaining then [delay * 2 ^ (attempt - 1)] else []
      let rest := withRetryAux fn delay (attempt + 1) remaining (some e)
      (rest.1, rest.2.1 + 1, waitsHead ++ rest.2.2)

/-- Embedding of `withRetry fn maxRetries delay`.  `maxRetries` is an
integer (the source's loop `for (attempt = 1; attempt <= maxRetries; ...)`
runs `max maxRetries 0` iterations); `lastError` starts out unset. -/
def withRetry (fn : Nat → Except ε α) (maxRetries : Int) (delay : Nat) :
    Except (Option ε) α × Nat × List Nat :=
  withRetryAux fn delay 1 maxRetries.toNat none

/-! ## TTL cache (src/services/points-api.ts)

```ts
const CACHE_EXPIRY = 2 * 60 * 1000; // 2 minutes in milliseconds

const saveToCache = async (data: Activity[]) => {
  await AsyncStorage.setItem(CACHE_KEY, JSON.stringify({ timestamp: Date.now(), data: data }));
};

const getFromCache = async (): Promise<Activity[] | null> => {
  const cachedData = await AsyncStorage.getItem(CACHE_KEY);
  if (!cachedData) return null;
  const parsed = JSON.parse(cachedData);
  const now = Date.now();
  if (now - parsed.timestamp < (CACHE_EXPIRY / 2)) {
    return parsed.data;
  } else {
    return null;
  }
};
```

The single `AsyncStorage` slot under `CACHE_KEY` is embedded as an
`Option CacheEntry` passed explicitly (none = no entry stored), and
`Date.now()` as an explicit millisecond clock value; the payload type is
a parameter (the source stores `Activity[]`). -/

/-- Cache expiry: 2 minutes in milliseconds. -/
def CACHE_EXPIRY : Int := 2 * 60 * 1000

/-- The record `JSON.stringify`-ed into the cache slot. -/
structure CacheEntry (α : Type) where
  timestamp : Int
  data : α
deriving DecidableEq, Repr

/-- Embedding of `saveToCache data` at clock value `now`: overwrite the
slot with a timestamped entry. -/
def saveToCache (data : α) (now : Int) : CacheEntry α :=
  { timestamp := now, data := data }

/-- Embedding of `getFromCache` reading slot `stored` at clock value
`now`: a hit returns the stored payload only while the entry's age is
under half of `CACHE_EXPIRY`; otherwise (and when no entry exists) the
read signals a miss with `none`. -/
def getFromCache (stored : Option (CacheEntry α)) (now : Int) : Option α :=
  match stored with
  | none => none
  | some parsed =>
    if now - parsed.timestamp < CACHE_EXPIRY / 2 then
      some parsed.data
    else
      none

/-! ## Color-scheme hook (src/services/dashboard.ts part)

```ts
export function useColorScheme(): NonNullable<ColorSchemeName> {
  const colorScheme = nativeUseColorScheme() ?? 'light';
  return 'light';
}
```

The device scheme reported by the framework hook is `'light'`, `'dark'`
or `null`, embedded as `Option ColorScheme`. -/

/-- The non-null color schemes of the UI framework. -/
inductive ColorScheme where
  | light : ColorScheme
  | dark : ColorScheme
deriving DecidableEq, Repr

/-- Embedding of the module-level `useColorScheme` hook: it computes the
device scheme with a `'light'` default, then returns the constant
`'light'` regardless. -/
def useColorScheme (deviceScheme : Option ColorScheme) : ColorScheme :=
  let _colorScheme := deviceScheme.getD ColorScheme.light
  ColorScheme.light

/-! ## JavaScript value helpers shared by the logging screen's utilities -/

/-- Whether a character is whitespace (space, tab, newline, carriage
return). -/
def isSpaceChar (c : Char) : Bool :=
  c.toNat = 32 || c.toNat = 9 || c.toNat = 10 || c.toNat = 13

/-- Strip leading and trailing whitespace from a character list. -/
def trimChars (cs : List Char) : List Char :=
  ((cs.dropWhile isSpaceChar).reverse.dropWhile isSpaceChar).reverse

/-- The value of a decimal digit character, if it is one. -/
def digitVal (c : Char) : Option Nat :=
  if 48 ≤ c.toNat ∧ c.toNat ≤ 57 then some (c.toNat - 48) else none

/-- Accumulate a decimal number over a digit list (`none` on any
non-digit). -/
def natFromCharsAux : List Char → Nat → Option Nat
  | [], acc => some acc
  | c :: cs, acc =>
    match digitVal c with
    | some d => natFromCharsAux cs (acc * 10 + d)
    | none => none

/-- Parse a non-empty all-digit character list as a natural number. -/
def natFromChars (cs : List Char) : Option Nat :=
  match cs with
  | [] => none
  | _ => natFromCharsAux cs 0

/-- Parse an optionally signed decimal integer from a character list. -/
def intFromChars : List Char → Option Int
  | '-' :: rest => (natFromChars rest).map (fun n => -(n : Int))
  | '+' :: rest => (natFromChars rest).map (fun n => (n : Int))
  | cs => (natFromChars cs).map (fun n => (n : Int))

/-- JavaScript `Number(v)` coercion, restricted to the embedded value
shapes: `undefined` coerces to `NaN`, `null` to `0`, booleans to `0`/`1`,
and a string to its trimmed parsed integer (`0` for a whitespace-only
string, `NaN` when unparseable). -/
def toNumber : JSVal → JSVal
  | JSVal.undef => JSVal.nan
  | JSVal.null => JSVal.num 0
  | JSVal.num n => JSVal.num n
  | JSVal.nan => JSVal.nan
  | JSVal.bool b => JSVal.num (if b then 1 else 0)
  | JSVal.str s =>
    if trimChars s.toList = [] then JSVal.num 0
    else
      match intFromChars (trimChars s.toList) with
      | some n => JSVal.num n
      | none => JSVal.nan

/-- JavaScript `isNaN` on an embedded numeric value. -/
def isNaNv : JSVal → Bool
  | JSVal.nan => true
  | _ => false

/-- Whether an embedded value is an ordinary (non-`NaN`) number. -/
def JSVal.isNum : JSVal → Bool
  | JSVal.num _ => true
  | _ => false

/-- JavaScript `String(v)` for the embedded value shapes. -/
def jsToString : JSVal → String
  | JSVal.undef => "undefined"
  | JSVal.null => "null"
  | JSVal.num n => toString n
  | JSVal.nan => "NaN"
  | JSVal.str s => s
  | JSVal.bool b => if b then "true" else "false"

/-- The string content of an embedded value for the string methods the
screen calls on its fields (`toLowerCase`, `split`); the client only
reaches these calls with string data, so non-string values are embedded
as the empty string. -/
def strVal : JSVal → String
  | JSVal.str s => s
  | _ => ""

/-- Lowercased string content, modelling `v.toLowerCase()`. -/
def jsLower (v : JSVal) : String := (strVal v).toLower

/-- Whether `needle` occurs at the start of `hay` (on character lists). -/
def startsWithChars : List Char → List Char → Bool
  | [], _ => true
  | _ :: _, [] => false
  | a :: as, b :: bs => a == b && startsWithChars as bs

/-- Whether `needle` occurs contiguously anywhere in `hay` (on character
lists). -/
def hasSegment (needle : List Char) : List Char → Bool
  | [] => startsWithChars needle []
  | c :: cs => startsWithChars needle (c :: cs) || hasSegment needle cs

/-- JavaScript `hay.includes(needle)`: contiguous substring test. -/
def strIncludes (hay needle : String) : Bool :=
  hasSegment needle.toList hay.toList

/-- Code-point comparison of two character lists: negative, zero or
positive like JavaScript `localeCompare` (embedded as the plain
code-point order, the order the source relies on for `HH:MM` time
strings). -/
def charListCmp : List Char → List Char → Int
  | [], [] => 0
  | [], _ :: _ => -1
  | _ :: _, [] => 1
  | a :: as, b :: bs =>
    if a.toNat < b.toNat then -1
    else if b.toNat < a.toNat then 1
    else charListCmp as bs

/-- Embedding of `a.localeCompare(b)`. -/
def localeCompare (s t : String) : Int :=
  charListCmp s.toList t.toList

/-- Split a character list on the dash character. -/
def splitDash : List Char → List (List Char)
  | [] => [[]]
  | c :: cs =>
    match splitDash cs with
    | [] => if c = '-' then [[], []] else [[c]]
    | r :: rs => if c = '-' then [] :: r :: rs else (c :: r) :: rs

/-- Embedding of `new Date(s).getTime()` for the client's `YYYY-MM-DD`
date strings: a strictly monotone day index scaled to milliseconds, and
`NaN` for a string that does not parse as such a date. -/
def parseDateMs (s : String) : JSVal :=
  match splitDash s.toList with
  | [ys, ms, ds] =>
    match natFromChars ys, natFromChars ms, natFromChars ds with
    | some y, some m, some d =>
      if 1 ≤ m ∧ m ≤ 12 ∧ 1 ≤ d ∧ d ≤ 31 then
        JSVal.num ((((y * 12 + (m - 1)) * 31 + (d - 1) : Nat) : Int) * 86400000)
      else JSVal.nan
    | _, _, _ => JSVal.nan
  | _ => JSVal.nan

/-- Embedding of `new Date(v).getTime()` on an embedded value: a string
parses as a date, a number is already a millisecond timestamp, a boolean
coerces through `0`/`1`, anything else is an invalid date (`NaN`). -/
def jsGetTime : JSVal → JSVal
  | JSVal.str s => parseDateMs s
  | JSVal.num n => JSVal.num n
  | JSVal.bool b => JSVal.num (if b then 1 else 0)
  | _ => JSVal.nan

/-- JavaScript `<` between two `Date`s (numeric comparison of their
timestamps, false when either is `NaN`). -/
def jsLt : JSVal → JSVal → Bool
  | JSVal.num a, JSVal.num b => a < b
  | _, _ => false

/-- Shift a timestamp by `d` milliseconds (an invalid date stays
invalid), modelling `endDate.setHours(23, 59, 59, 999)` as a shift to
the last millisecond of the (UTC-parsed) day. -/
def jsAddMs (v : JSVal) (d : Int) : JSVal :=
  match v with
  | JSVal.num n => JSVal.num (n + d)
  | _ => JSVal.nan

/-- JavaScript `v < mp` for a numeric right-hand side: the left value is
coerced with `Number`, and the comparison is false when that is `NaN`. -/
def jsLtNum (v : JSVal) (mp : Int) : Bool :=
  match toNumber v with
  | JSVal.num n => n < mp
  | _ => false

/-! ## Activity records and normalization (src/app/(tabs)/logging.tsx)

The activities endpoint answers with records whose field names appear in
either of two casing conventions.  A record is embedded as one optional
slot per touched key: `none` means the key is absent from the object, so
that the object-spread `...item` in `loadActivities`' normalization
(which overrides a computed key only when `item` has that key) is
faithfully represented.

```ts
const normalizedData = data.map(item => {
  return {
    Activity: item.Activity || item.activity,
    Category: item.Category || item.category,
    Date: item.Date || item.date,
    Start_Time: item.Start_Time || item.start_time,
    End_Time: item.End_Time || item.end_time,
    Notes: item.Notes || item.notes,
    Points: item.Points || item.points,
    Tags: item.Tags || item.tags,
    activity_id: item.activity_id,
    ...item
  };
});
```
-/

/-- An activity record as received from the API: each key the logging
screen touches, in both casing conventions, is an optional slot (`none`
= key absent). -/
structure ActivityRec where
  Activity : Option JSVal
  Category : Option JSVal
  Date : Option JSVal
  Start_Time : Option JSVal
  End_Time : Option JSVal
  Notes : Option JSVal
  Points : Option JSVal
  Tags : Option JSVal
  activity_id : Option JSVal
  activity : Option JSVal
  category : Option JSVal
  date : Option JSVal
  start_time : Option JSVal
  end_time : Option JSVal
  notes : Option JSVal
  points : Option JSVal
  tags : Option JSVal
deriving DecidableEq, Repr

/-- Reading a property: an absent key reads as `undefined`. -/
def aget (o : Option JSVal) : JSVal := o.getD JSVal.undef

/-- The per-record normalization applied in `loadActivities`: each
uppercase key is computed as `item.Upper || item.lower`, `activity_id`
is copied, and then the object spread `...item` re-applies every key the
original record has, overriding the computed value.  Lowercase keys are
therefore exactly the original record's lowercase keys, and an uppercase
key holds the original value when present and the `||`-merge otherwise. -/
def normalizeItem (item : ActivityRec) : ActivityRec where
  Activity := some (item.Activity.getD (jsOr (aget item.Activity) (aget item.activity)))
  Category := some (item.Category.getD (jsOr (aget item.Category) (aget item.category)))
  Date := some (item.Date.getD (jsOr (aget item.Date) (aget item.date)))
  Start_Time := some (item.Start_Time.getD (jsOr (aget item.Start_Time) (aget item.start_time)))
  End_Time := some (item.End_Time.getD (jsOr (aget item.End_Time) (aget item.end_time)))
  Notes := some (item.Notes.getD (jsOr (aget item.Notes) (aget item.notes)))
  Points := some (item.Points.getD (jsOr (aget item.Points) (aget item.points)))
  Tags := some (item.Tags.getD (jsOr (aget item.Tags) (aget item.tags)))
  activity_id := some (item.activity_id.getD (aget item.activity_id))
  activity := item.activity
  category := item.category
  date := item.date
  start_time := item.start_time
  end_time := item.end_time
  notes := item.notes
  points := item.points
  tags := item.tags

/-- The normalized view of a response list (`data.map(item => ...)`). -/
def normalizedData (data : List ActivityRec) : List ActivityRec :=
  data.map normalizeItem

/-! ## Sorting (src/app/(tabs)/logging.tsx, `sortActivities`)

```ts
return [...data].sort((a, b) => {
  const dateA = a?.Date ? new Date(a.Date).getTime() : 0;
  const dateB = b?.Date ? new Date(b.Date).getTime() : 0;
  const dateComparison = dateB - dateA;
  if (dateComparison !== 0) return dateComparison;
  const aTime = a?.Start_Time ? (typeof a.Start_Time === 'string' ? a.Start_Time : String(a.Start_Time)) : '';
  const bTime = b?.Start_Time ? (typeof b.Start_Time === 'string' ? b.Start_Time : String(b.Start_Time)) : '';
  return aTime.localeCompare(bTime);
});
```
-/

/-- The date sort key of a record: `a?.Date ? new Date(a.Date).getTime() : 0`
(a falsy `Date` field keys as `0`; an unparseable one as `NaN`). -/
def dateKeyJS (a : ActivityRec) : JSVal :=
  if truthy (aget a.Date) then jsGetTime (aget a.Date) else JSVal.num 0

/-- The tie-break key: the `Start_Time` field as a string, or the empty
string when the field is falsy. -/
def startTimeStr (a : ActivityRec) : String :=
  if truthy (aget a.Start_Time) then
    match aget a.Start_Time with
    | JSVal.str s => s
    | v => jsToString v
  else ""

/-- The comparator passed to `sort`: dates in reverse (newest first),
`localeCompare` of start times on a date tie.  A `NaN` date makes the
subtraction `NaN`, which the sort engine treats as "equal" (the
comparator branch returns the `NaN` without consulting start times). -/
def sortCmp (a b : ActivityRec) : Int :=
  match dateKeyJS a, dateKeyJS b with
  | JSVal.num nA, JSVal.num nB =>
    if nB - nA ≠ 0 then nB - nA
    else localeCompare (startTimeStr a) (startTimeStr b)
  | _, _ => 0

/-- Embedding of `sortActivities`: a stable sort of a copy of the list
by `sortCmp` (the guard for a non-array argument cannot fire on a typed
list). -/
def sortActivities (data : List ActivityRec) : List ActivityRec :=
  data.mergeSort (fun a b => sortCmp a b ≤ 0)

/-! ## Filtering (src/app/(tabs)/logging.tsx, `filteredActivities`)

The `useMemo` body filters `activities` by a text query and the
structured filter set; each stage returns `false` early when its active
predicate rejects the record. -/

/-- The structured filter state: three multi-select dimensions, an
optional date range (whose `startDate`/`endDate` are date strings, the
empty string standing for an unset, falsy field), and an optional
minimum points bound. -/
structure DateRange where
  startDate : String
  endDate : String
deriving DecidableEq, Repr

structure Filters where
  categories : List String
  activities : List String
  tags : List String
  dateRange : Option DateRange
  minPoints : Option Int
deriving DecidableEq, Repr

/-- `activity.Activity || activity.activity`. -/
def activityNameOf (a : ActivityRec) : JSVal :=
  jsOr (aget a.Activity) (aget a.activity)

/-- `activity.Category || activity.category`. -/
def categoryNameOf (a : ActivityRec) : JSVal :=
  jsOr (aget a.Category) (aget a.category)

/-- `activity.Tags || activity.tags || ''`. -/
def tagsValueOf (a : ActivityRec) : JSVal :=
  jsOr (jsOr (aget a.Tags) (aget a.tags)) (JSVal.str "")

/-- `activity.Notes || activity.notes || ''`. -/
def notesValueOf (a : ActivityRec) : JSVal :=
  jsOr (jsOr (aget a.Notes) (aget a.notes)) (JSVal.str "")

/-- `activity.Date || activity.date`. -/
def dateValueOf (a : ActivityRec) : JSVal :=
  jsOr (aget a.Date) (aget a.date)

/-- `activity.Points || activity.points || 0`. -/
def pointsValueOf (a : ActivityRec) : JSVal :=
  jsOr (jsOr (aget a.Points) (aget a.points)) (JSVal.num 0)

/-- The basic required fields check: records without a truthy activity
name or category name are skipped. -/
def requiredFieldsOk (a : ActivityRec) : Bool :=
  truthy (activityNameOf a) && truthy (categoryNameOf a)

/-- A lowercased substring hit of the query on the activity name,
category, tags or notes. -/
def searchHit (q : String) (a : ActivityRec) : Bool :=
  strIncludes (jsLower (activityNameOf a)) q.toLower ||
  strIncludes (jsLower (categoryNameOf a)) q.toLower ||
  strIncludes (jsLower (tagsValueOf a)) q.toLower ||
  strIncludes (jsLower (notesValueOf a)) q.toLower

/-- Whether the record's category equals one of the selected category
values (`filters.categories.includes(categoryName)`). -/
def categoryHit (f : Filters) (a : ActivityRec) : Bool :=
  match categoryNameOf a with
  | JSVal.str s => f.categories.contains s
  | _ => false

/-- Whether the record's activity name equals one of the selected
activity values (`filters.activities.includes(activityName)`). -/
def activityHit (f : Filters) (a : ActivityRec) : Bool :=
  match activityNameOf a with
  | JSVal.str s => f.activities.contains s
  | _ => false

/-- The text-search stage: a lowercased substring hit on the activity
name, category, tags or notes (vacuously satisfied by an empty query). -/
def matchesSearch (q : String) (a : ActivityRec) : Bool :=
  q == "" || searchHit q a

/-- The categories multi-select: inactive when empty, otherwise the
record's category must equal one of the selected values. -/
def matchesCategories (f : Filters) (a : ActivityRec) : Bool :=
  f.categories.isEmpty || categoryHit f a

/-- The activities multi-select: inactive when empty, otherwise the
record's activity name must equal one of the selected values. -/
def matchesActivitiesSel (f : Filters) (a : ActivityRec) : Bool :=
  f.activities.isEmpty || activityHit f a

/-- The date-range stage: active when a truthy `startDate` is set; the
record needs a truthy, parsed date no earlier than `startDate` and, when
a truthy `endDate` is set, no later than the end of that day. -/
def matchesDateRange (f : Filters) (a : ActivityRec) : Bool :=
  match f.dateRange with
  | none => true
  | some dr =>
    if dr.startDate == "" then true
    else
      let activityMs := jsGetTime (dateValueOf a)
      if !truthy (dateValueOf a) || jsLt activityMs (jsGetTime (JSVal.str dr.startDate)) then
        false
      else if dr.endDate == "" then true
      else !jsLt (jsAddMs (jsGetTime (JSVal.str dr.endDate)) 86399999) activityMs

/-- The minimum-points stage: active when `minPoints` is set and truthy
(non-zero); the record's coerced points must not fall below it. -/
def matchesMinPoints (f : Filters) (a : ActivityRec) : Bool :=
  match f.minPoints with
  | none => true
  | some mp => !(mp != 0 && jsLtNum (pointsValueOf a) mp)

/-- The tags multi-select: inactive when empty; otherwise the record's
comma-separated tags string, split and trimmed, must contain at least
one of the selected tags. -/
def matchesTags (f : Filters) (a : ActivityRec) : Bool :=
  f.tags.isEmpty ||
    (truthy (tagsValueOf a) &&
      f.tags.any (fun filterTag =>
        (((strVal (tagsValueOf a)).splitOn ",").map String.trim).contains filterTag))

/-- The filter predicate applied to each record, with the source's
early-return structure: required fields, then text search, categories,
activities, date range, minimum points and tags. -/
def activityPasses (q : String) (f : Filters) (a : ActivityRec) : Bool :=
  if !requiredFieldsOk a then false
  else if q != "" && !searchHit q a then false
  else if !f.categories.isEmpty && !categoryHit f a then false
  else if !f.activities.isEmpty && !activityHit f a then false
  else if !matchesDateRange f a then false
  else if !matchesMinPoints f a then false
  else if !matchesTags f a then false
  else true

/-- Embedding of the `filteredActivities` memo: the records passing
every active stage, in input order. -/
def filteredActivities (q : String) (f : Filters) (activities : List ActivityRec) :
    List ActivityRec :=
  activities.filter (activityPasses q f)

/-! ## Sample records and filter states used in concrete runs -/

/-- The empty filter set: no multi-select values, no date range, no
minimum points. -/
def emptyFilters : Filters where
  categories := []
  activities := []
  tags := []
  dateRange := none
  minPoints := none

/-- A record with no keys at all (every field absent). -/
def blankRec : ActivityRec where
  Activity := none
  Category := none
  Date := none
  Start_Time := none
  End_Time := none
  Notes := none
  Points := none
  Tags := none
  activity_id := none
  activity := none
  category := none
  date := none
  start_time := none
  end_time := none
  notes := none
  points := none
  tags := none

/-- A well-formed record with both required fields present. -/
def fitRec : ActivityRec :=
  { blankRec with
    Activity := some (JSVal.str "Running")
    Category := some (JSVal.str "Fitness")
    Date := some (JSVal.str "2024-05-01")
    Points := some (JSVal.num 10) }

/-- A record arriving with only uppercase keys. -/
def upperOnlyItem : ActivityRec :=
  { blankRec with
    Activity := some (JSVal.str "Running")
    Category := some (JSVal.str "Fitness")
    Date := some (JSVal.str "2024-05-01")
    Start_Time := some (JSVal.str "08:00")
    Points := some (JSVal.num 10)
    activity_id := some (JSVal.num 1) }

/-- A record dated earlier than the other samples. -/
def earlierRec : ActivityRec :=
  { blankRec with
    Activity := some (JSVal.str "Reading")
    Category := some (JSVal.str "Leisure")
    Date := some (JSVal.str "2024-05-01")
    Start_Time := some (JSVal.str "20:00") }

/-- A record on the later date with a morning start time. -/
def morningRec : ActivityRec :=
  { blankRec with
    Activity := some (JSVal.str "Yoga")
    Category := some (JSVal.str "Fitness")
    Date := some (JSVal.str "2024-05-02")
    Start_Time := some (JSVal.str "07:00") }

/-- A record on the later date with an evening start time. -/
def eveningRec : ActivityRec :=
  { blankRec with
    Activity := some (JSVal.str "Cooking")
    Category := some (JSVal.str "Home")
    Date := some (JSVal.str "2024-05-02")
    Start_Time := some (JSVal.str "19:00") }

/-- The sort comparator on records restricted to members of `A`, as a
boolean "less or equal". -/
def attachLe (A : List ActivityRec) (x y : {r : ActivityRec // r ∈ A}) : Bool :=
  sortCmp x.1 y.1 ≤ 0

/-! ## Chart data preparers (src/app/(tabs)/logging.tsx)

```ts
const prepareMoodData = (logs: MoodData[], property: keyof MoodData) => {
  if (!logs || logs.length === 0) return [];
  return logs
    .filter(log => {
      const value = log[property];
      return value !== undefined && value !== null && !isNaN(Number(value));
    })
    .sort((a, b) => {
      const dateA = new Date(a.date).getTime();
      const dateB = new Date(b.date).getTime();
      return isNaN(dateA) || isNaN(dateB) ? 0 : dateA - dateB;
    })
    .map(log => {
      const value = Number(log[property]);
      return { x: log.date, y: isNaN(value) ? 0 : value, date: formatDate(log.date) };
    });
};
```

`prepareSleepHoursData` is the same pipeline fixed to `sleep_hours`;
`prepareSleepMoodData` filters on `sleep_hours !== undefined &&
mood_score !== undefined && !isNaN(Number(sleep_hours)) &&
!isNaN(Number(mood_score))` (no `null` check, no sort) and plots
`(sleepHours, moodScore)` pairs. -/

/-- A mood log: the date plus the five numeric self-report fields, each
of which may arrive as any JavaScript value. -/
structure MoodLog where
  date : String
  mood_score : JSVal
  energy_level : JSVal
  stress_level : JSVal
  sleep_hours : JSVal
  sleep_quality : JSVal
deriving DecidableEq, Repr

/-- The numeric properties of a mood log that the chart preparers are
keyed by. -/
inductive MoodProp where
  | mood_score : MoodProp
  | energy_level : MoodProp
  | stress_level : MoodProp
  | sleep_hours : MoodProp
  | sleep_quality : MoodProp
deriving DecidableEq, Repr

/-- Dynamic property access `log[property]`. -/
def MoodLog.get (log : MoodLog) : MoodProp → JSVal
  | MoodProp.mood_score => log.mood_score
  | MoodProp.energy_level => log.energy_level
  | MoodProp.stress_level => log.stress_level
  | MoodProp.sleep_hours => log.sleep_hours
  | MoodProp.sleep_quality => log.sleep_quality

/-- An `(x, y)` chart point in the shape handed to the charting library
(`x` is a date string or a number, `date` a display-formatted string). -/
structure ChartPoint where
  x : JSVal
  y : Int
  date : String
deriving DecidableEq, Repr

/-- English month names for the display format. -/
def monthName : Nat → String
  | 1 => "January"
  | 2 => "February"
  | 3 => "March"
  | 4 => "April"
  | 5 => "May"
  | 6 => "June"
  | 7 => "July"
  | 8 => "August"
  | 9 => "September"
  | 10 => "October"
  | 11 => "November"
  | 12 => "December"
  | _ => ""

/-- Embedding of the screen's `formatDate` helper
(`new Date(s).toLocaleDateString(undefined, {...})` in the en-US long
format): `Month D, YYYY` for a parseable `YYYY-MM-DD` string, and the
`Invalid Date` rendering otherwise. -/
def formatDate (dateString : String) : String :=
  match splitDash dateString.toList with
  | [ys, ms, ds] =>
    match natFromChars ys, natFromChars ms, natFromChars ds with
    | some y, some m, some d =>
      if 1 ≤ m ∧ m ≤ 12 ∧ 1 ≤ d ∧ d ≤ 31 then
        monthName m ++ " " ++ toString d ++ ", " ++ toString y
      else "Invalid Date"
    | _, _, _ => "Invalid Date"
  | _ => "Invalid Date"

/-- The `Number(...)` of a value with the preparers' `isNaN` fallback to
`0` (`isNaN(value) ? 0 : value`). -/
def numOrZero (v : JSVal) : Int :=
  match toNumber v with
  | JSVal.num n => n
  | _ => 0

/-- The preparers' validity test on a target field
(`value !== undefined && value !== null && !isNaN(Number(value))`). -/
def validNumberField (v : JSVal) : Bool :=
  v ≠ JSVal.undef && v ≠ JSVal.null && !isNaNv (toNumber v)

/-- The date comparator of the preparers' `.sort`: chronological, with a
tie whenever either date fails to parse. -/
def moodDateCmp (a b : MoodLog) : Int :=
  match parseDateMs a.date, parseDateMs b.date with
  | JSVal.num x, JSVal.num y => x - y
  | _, _ => 0

/-- Embedding of `prepareMoodData`. -/
def prepareMoodData (logs : List MoodLog) (property : MoodProp) : List ChartPoint :=
  if logs.isEmpty then []
  else
    ((logs.filter (fun log => validNumberField (log.get property))).mergeSort
        (fun a b => moodDateCmp a b ≤ 0)).map
      (fun log =>
        { x := JSVal.str log.date, y := numOrZero (log.get property),
          date := formatDate log.date })

/-- Embedding of `prepareSleepHoursData`: the same pipeline fixed to the
`sleep_hours` field. -/
def prepareSleepHoursData (logs : List MoodLog) : List ChartPoint :=
  if logs.isEmpty then []
  else
    ((logs.filter (fun log => validNumberField log.sleep_hours)).mergeSort
        (fun a b => moodDateCmp a b ≤ 0)).map
      (fun log =>
        { x := JSVal.str log.date, y := numOrZero log.sleep_hours,
          date := formatDate log.date })

/-- Embedding of `prepareSleepMoodData`: both fields must be defined and
coerce to non-`NaN` numbers — but, unlike the other preparers, a `null`
field is not rejected (it coerces to `0`); the output is not sorted. -/
def prepareSleepMoodData (logs : List MoodLog) : List ChartPoint :=
  if logs.isEmpty then []
  else
    (logs.filter (fun log =>
        log.sleep_hours ≠ JSVal.undef && log.mood_score ≠ JSVal.undef &&
        !isNaNv (toNumber log.sleep_hours) && !isNaNv (toNumber log.mood_score))).map
      (fun log =>
        { x := JSVal.num (numOrZero log.sleep_hours), y := numOrZero log.mood_score,
          date := formatDate log.date })

/-- A mood log whose `sleep_hours` arrived as `null`. -/
def nullSleepLog : MoodLog where
  date := "2024-05-01"
  mood_score := JSVal.num 5
  energy_level := JSVal.undef
  stress_level := JSVal.undef
  sleep_hours := JSVal.null
  sleep_quality := JSVal.undef

/-- A fully well-formed mood log. -/
def goodLog : MoodLog where
  date := "2024-05-02"
  mood_score := JSVal.num 7
  energy_level := JSVal.num 6
  stress_level := JSVal.num 3
  sleep_hours := JSVal.num 8
  sleep_quality := JSVal.num 9

/-! ## Points API read/write error policy (src/services/points-api.ts)

```ts
export const getTotalPoints = async (forceRefresh = false): Promise<number> => {
  try {
    const response = await fetch(`${API_BASE_URL}/points/total`);
    const data = await response.json() as PointsResponse;
    return data.total_points;
  } catch (error) {
    return 1250;
  }
};

export const getAvailableRewards = async (): Promise<AvailableReward[]> => {
  try {
    const response = await fetch(`${API_BASE_URL}/points/available-rewards`);
    const data = await response.json();
    if (Array.isArray(data.rewards)) { return data.rewards; }
    else { return [ ...four mock rewards... ]; }
  } catch (error) {
    return [ ...the same four mock rewards... ];
  }
};

export const purchaseReward = async (...): Promise<PurchaseResponse> => {
  try {
    const response = await fetch(`${API_BASE_URL}/points/purchase`, {...});
    const result = await response.json() as PurchaseResponse;
    return result;
  } catch (error) {
    throw error;
  }
};
```

A fetch outcome is embedded as `Except String Response`: a network
failure is `Except.error`; a completed response carries its HTTP status
(never consulted by these functions) and the outcome of `response.json()`
(`Except.error` for a body that fails to parse).  `data.total_points` on
a parsed body is a plain member access: `undefined` when the key is
missing or the body is not an object, and a thrown `TypeError` (caught
by the enclosing handler) when the body is JSON `null`. -/

/-- A JSON value as produced by `response.json()`. -/
inductive Json where
  | jnull : Json
  | jnum : Int → Json
  | jstr : String → Json
  | jbool : Bool → Json
  | jarr : List Json → Json
  | jobj : List (String × Json) → Json

/-- A completed HTTP response: status code and parsed-body outcome. -/
structure Response where
  status : Nat
  body : Except String Json

/-- Key lookup among an object's fields. -/
def lookupField : List (String × Json) → String → Option Json
  | [], _ => none
  | (k, v) :: rest, key => if k = key then some v else lookupField rest key

/-- The four hard-coded mock rewards returned when the rewards list
cannot be obtained. -/
def mockRewards : Json :=
  Json.jarr
    [Json.jobj [("id", Json.jnum 1), ("name", Json.jstr "Netflix movie night"),
       ("points_cost", Json.jnum 300),
       ("description", Json.jstr "Two hours of Netflix with snacks")],
     Json.jobj [("id", Json.jnum 2), ("name", Json.jstr "Sleep in"),
       ("points_cost", Json.jnum 500),
       ("description", Json.jstr "Sleep in an extra hour on a weekday")],
     Json.jobj [("id", Json.jnum 3), ("name", Json.jstr "Restaurant dinner"),
       ("points_cost", Json.jnum 1000),
       ("description", Json.jstr "Dinner at a restaurant of your choice")],
     Json.jobj [("id", Json.jnum 4), ("name", Json.jstr "Video game session"),
       ("points_cost", Json.jnum 200),
       ("description", Json.jstr "One hour of guilt-free gaming")]]

/-- Embedding of `getTotalPoints`: the fallback `1250` on a thrown error
(network failure, parse failure, or member access on a `null` body);
otherwise the raw `total_points` member of the parsed body, which is
`undefined` (`none`) when the body lacks it or is not an object. -/
def getTotalPoints (fetchResult : Except String Response) : Option Json :=
  match fetchResult with
  | Except.error _ => some (Json.jnum 1250)
  | Except.ok response =>
    match response.body with
    | Except.error _ => some (Json.jnum 1250)
    | Except.ok data =>
      match data with
      | Json.jnull => some (Json.jnum 1250)
      | Json.jobj fields => lookupField fields "total_points"
      | _ => none

/-- Embedding of `getAvailableRewards`: the parsed body's `rewards`
member when it is an array, and the mock list on a thrown error or any
other shape. -/
def getAvailableRewards (fetchResult : Except String Response) : Json :=
  match fetchResult with
  | Except.error _ => mockRewards
  | Except.ok response =>
    match response.body with
    | Except.error _ => mockRewards
    | Except.ok data =>
      match data with
      | Json.jobj fields =>
        match lookupField fields "rewards" with
        | some (Json.jarr rewards) => Json.jarr rewards
        | _ => mockRewards
      | _ => mockRewards

/-- Embedding of `purchaseReward`'s response handling: a thrown error
(network or parse failure) is re-thrown to the caller; otherwise the
parsed body is returned as-is. -/
def purchaseReward (fetchResult : Except String Response) : Except String Json :=
  match fetchResult with
  | Except.error e => Except.error e
  | Except.ok response =>
    match response.body with
    | Except.error e => Except.error e
    | Except.ok result => Except.ok result

/-! ## Theorems about the retry helper -/

/-- Unfolding of one failing loop iteration of `withRetryAux`. -/
theorem withRetryAux_stepError (fn : Nat → Except ε α) (delay attempt remaining : Nat)
    (last : Option ε) (e : ε) (he : fn attempt = Except.error e) :
    withRetryAux fn delay attempt (remaining + 1) last =
      ((withRetryAux fn delay (attempt + 1) remaining (some e)).1,
       (withRetryAux fn delay (attempt + 1) remaining (some e)).2.1 + 1,
       (if 0 < remaining then [delay * 2 ^ (attempt - 1)] else []) ++
         (withRetryAux fn delay (attempt + 1) remaining (some e)).2.2) := by
  simp only [withRetryAux, he]

/-- Unfolding of one succeeding loop iteration of `withRetryAux`. -/
theorem withRetryAux_stepOk (fn : Nat → Except ε α) (delay attempt remaining : Nat)
    (last : Option ε) (v : α) (hv : fn attempt = Except.ok v) :
    withRetryAux fn delay attempt (remaining + 1) last = (Except.ok v, 1, []) := by
  simp only [withRetryAux, hv]

/-- Prepending the wait of attempt `a` to the waits of attempts
`a + 1, ...` extends the back-off schedule by one step. -/
theorem backoff_waits_cons (delay a t : Nat) (ha : 1 ≤ a) :
    delay * 2 ^ (a - 1) :: (List.range t).map (fun i => delay * 2 ^ (a + 1 - 1 + i)) =
      (List.range (t + 1)).map (fun i => delay * 2 ^ (a - 1 + i)) := by
  rw [List.range_succ_eq_map, List.map_cons, List.map_map]
  have h0 : delay * 2 ^ (a - 1 + 0) = delay * 2 ^ (a - 1) := by norm_num
  rw [h0]
  have htail : (List.range t).map ((fun i => delay * 2 ^ (a - 1 + i)) ∘ Nat.succ) =
      (List.range t).map (fun i => delay * 2 ^ (a + 1 - 1 + i)) := by
    refine List.map_congr_left ?_
    intro i _
    have he : a - 1 + Nat.succ i = a + 1 - 1 + i := by omega
    simp only [Function.comp, he]
  rw [htail]

/-- When every attempt in the window `a .. a + r - 1` fails, the retry
loop performs all `r` remaining attempts, records a back-off wait after
each failed attempt except the last, and ends carrying the error of the
final attempt. -/
theorem withRetryAux_allFail (fn : Nat → Except ε α) (delay : Nat) (k : Nat) (err : Nat → ε)
    (hfail : ∀ i, 1 ≤ i → i ≤ k → fn i = Except.error (err i)) :
    ∀ r a last, 1 ≤ r → 1 ≤ a → a + r ≤ k + 1 →
      withRetryAux fn delay a r last =
        (Except.error (some (err (a + r - 1))), r,
          (List.range (r - 1)).map (fun i => delay * 2 ^ (a - 1 + i))) := by
  intro r
  induction r with
  | zero => intro a last h1 _ _; exact absurd h1 (by omega)
  | succ s ih =>
    intro a last _ ha hak
    have hfa : fn a = Except.error (err a) := hfail a ha (by omega)
    rw [withRetryAux_stepError fn delay a s last (err a) hfa]
    cases s with
    | zero => simp [withRetryAux]
    | succ t =>
      rw [ih (a + 1) (some (err a)) (by omega) (by omega) (by omega)]
      rw [if_pos (Nat.succ_pos t)]
      refine Prod.ext ?_ (Prod.ext ?_ ?_)
      · exact congrArg (fun x => Except.error (some (err x))) (by omega)
      · rfl
      · show delay * 2 ^ (a - 1) :: (List.range t).map (fun i => delay * 2 ^ (a + 1 - 1 + i)) =
          (List.range (t + 1)).map (fun i => delay * 2 ^ (a - 1 + i))
        exact backoff_waits_cons delay a t ha

/-- When attempts `a .. k` fail and attempt `k + 1` succeeds within the
remaining budget, the retry loop returns the success value after
`k + 2 - a` invocations, with one back-off wait per failed attempt. -/
theorem withRetryAux_success (fn : Nat → Except ε α) (delay : Nat) (k : Nat) (err : Nat → ε)
    (v : α)
    (hfail : ∀ i, 1 ≤ i → i ≤ k → fn i = Except.error (err i))
    (hsucc : fn (k + 1) = Except.ok v) :
    ∀ r a last, 1 ≤ r → 1 ≤ a → a ≤ k + 1 → k + 2 ≤ a + r →
      withRetryAux fn delay a r last =
        (Except.ok v, k + 2 - a,
          (List.range (k + 1 - a)).map (fun i => delay * 2 ^ (a - 1 + i))) := by
  intro r
  induction r with
  | zero => intro a last h1 _ _ _; exact absurd h1 (by omega)
  | succ s ih =>
    intro a last _ ha hak1 hbudget
    by_cases hEq : a = k + 1
    · subst hEq
      rw [withRetryAux_stepOk fn delay (k + 1) s last v hsucc]
      have h1 : k + 2 - (k + 1) = 1 := by omega
      have h2 : k + 1 - (k + 1) = 0 := by omega
      rw [h1, h2]
      simp
    · have haK : a ≤ k := by omega
      have hfa : fn a = Except.error (err a) := hfail a ha haK
      rw [withRetryAux_stepError fn delay a s last (err a) hfa]
      have hs1 : 1 ≤ s := by omega
      rw [ih (a + 1) (some (err a)) hs1 (by omega) (by omega) (by omega)]
      rw [if_pos (by omega : 0 < s)]
      refine Prod.ext ?_ (Prod.ext ?_ ?_)
      · rfl
      · show k + 2 - (a + 1) + 1 = k + 2 - a
        omega
      · show delay * 2 ^ (a - 1) ::
            (List.range (k + 1 - (a + 1))).map (fun i => delay * 2 ^ (a + 1 - 1 + i)) =
          (List.range (k + 1 - a)).map (fun i => delay * 2 ^ (a - 1 + i))
        have hk1a : k + 1 - a = (k + 1 - (a + 1)) + 1 := by omega
        rw [hk1a]
        exact backoff_waits_cons delay a (k + 1 - (a + 1)) ha

/-- C1: for an async operation `fn` that fails exactly `k` times and then
succeeds, `withRetry fn n delay` with `n ≥ k + 1` returns the success
value after exactly `k + 1` invocations, having waited
`delay * 2 ^ (attempt - 1)` after each of the `k` failed attempts; with
`1 ≤ n ≤ k` it performs exactly `n` invocations, waits after each failed
attempt except the last, and throws the error of attempt `n`. -/
theorem withRetry_failKThenSucceed (fn : Nat → Except ε α) (k : Nat) (err : Nat → ε) (v : α)
    (n : Int) (delay : Nat)
    (hfail : ∀ i, 1 ≤ i → i ≤ k → fn i = Except.error (err i))
    (hsucc : fn (k + 1) = Except.ok v) :
    ((k + 1 : Int) ≤ n →
      withRetry fn n delay =
        (Except.ok v, k + 1, (List.range k).map (fun i => delay * 2 ^ i))) ∧
    (1 ≤ n → n ≤ (k : Int) →
      withRetry fn n delay =
        (Except.error (some (err n.toNat)), n.toNat,
          (List.range (n.toNat - 1)).map (fun i => delay * 2 ^ i))) := by
  constructor
  · intro hn
    have hr : k + 2 ≤ 1 + n.toNat := by omega
    have h := withRetryAux_success fn delay k err v hfail hsucc n.toNat 1 none
      (by omega) (by omega) (by omega) hr
    rw [withRetry, h]
    refine Prod.ext rfl (Prod.ext ?_ ?_)
    · show k + 2 - 1 = k + 1
      omega
    · show (List.range (k + 1 - 1)).map (fun i => delay * 2 ^ (1 - 1 + i)) =
        (List.range k).map (fun i => delay * 2 ^ i)
      refine List.map_congr_left ?_
      intro i _
      norm_num
  · intro hn1 hnk
    have h := withRetryAux_allFail fn delay k err hfail n.toNat 1 none
      (by omega) (by omega) (by omega)
    rw [withRetry, h]
    refine Prod.ext ?_ (Prod.ext rfl ?_)
    · show Except.error (some (err (1 + n.toNat - 1))) = Except.error (some (err n.toNat))
      exact congrArg (fun x => Except.error (some (err x))) (by omega)
    · show (List.range (n.toNat - 1)).map (fun i => delay * 2 ^ (1 - 1 + i)) =
        (List.range (n.toNat - 1)).map (fun i => delay * 2 ^ i)
      refine List.map_congr_left ?_
      intro i _
      norm_num

/-- Concrete run of `withRetry_failKThenSucceed`: an operation failing on
attempts 1 and 2 and succeeding on attempt 3, with base delay 100. -/
theorem withRetry_failKThenSucceed_witness :
    withRetry (fun i => if i ≤ 2 then Except.error i else Except.ok 42) (3 : Int) 100 =
      (Except.ok 42, 3, [100, 200]) ∧
    withRetry (fun i => if i ≤ 2 then Except.error i else Except.ok 42) (2 : Int) 100 =
      (Except.error (some 2), 2, [100]) := by
  have h := withRetry_failKThenSucceed
    (fun i => if i ≤ 2 then Except.error i else Except.ok (42 : Nat)) 2 (fun i => i) 42 3 100
    (by intro i h1 h2; simp [h2]) (by simp)
  have h2 := withRetry_failKThenSucceed
    (fun i => if i ≤ 2 then Except.error i else Except.ok (42 : Nat)) 2 (fun i => i) 42 2 100
    (by intro i h1 h2; simp [h2]) (by simp)
  exact ⟨(h.1 (by norm_num)).trans rfl, ((h2.2 (by norm_num)) (by norm_num)).trans rfl⟩

/-- C10: with a non-positive `maxRetries` the retry loop body never runs,
so `fn` is invoked zero times and the helper throws the never-assigned
`lastError`, i.e. `undefined` (embedded as `Except.error none`). -/
theorem withRetry_nonpositiveMaxRetries (fn : Nat → Except ε α) (n : Int) (delay : Nat)
    (h : n ≤ 0) :
    withRetry fn n delay = (Except.error none, 0, []) := by
  have ht : n.toNat = 0 := Int.toNat_of_nonpos h
  rw [withRetry, ht]
  rfl

/-- Concrete run of `withRetry_nonpositiveMaxRetries` at `maxRetries = 0`
with an operation that would succeed if ever invoked. -/
theorem withRetry_nonpositiveMaxRetries_witness :
    withRetry (fun _ => Except.ok (0 : Nat)) (0 : Int) 1000 =
      (Except.error (none : Option Unit), 0, []) :=
  withRetry_nonpositiveMaxRetries (fun _ => Except.ok (0 : Nat)) 0 1000 (by norm_num)

/-! ## Theorems about the TTL cache -/

/-- C3: a read of a stored entry returns the stored payload unchanged
exactly when the entry's age is under half of `CACHE_EXPIRY` (which is
one minute, 60000 ms); in particular every read at or past the full
expiry signals a miss with `none`. -/
theorem getFromCache_ttl (data : α) (t now : Int) :
    (getFromCache (some (saveToCache data t)) now = some data ↔
      now - t < CACHE_EXPIRY / 2) ∧
    (CACHE_EXPIRY ≤ now - t → getFromCache (some (saveToCache data t)) now = none) ∧
    CACHE_EXPIRY / 2 = 60 * 1000 := by
  refine ⟨?_, ?_, by decide⟩
  · unfold getFromCache saveToCache
    by_cases hyoung : now - t < CACHE_EXPIRY / 2
    · simp [hyoung]
    · simp [hyoung]
  · intro hexp
    unfold getFromCache saveToCache
    have : ¬ (now - t < CACHE_EXPIRY / 2) := by
      simp only [CACHE_EXPIRY] at hexp ⊢
      omega
    simp [this]

/-- Concrete runs of `getFromCache_ttl`: a read 30 seconds after the
write hits and returns the payload; a read 2 minutes after the write
misses. -/
theorem getFromCache_ttl_witness :
    getFromCache (some (saveToCache (42 : Nat) 0)) 30000 = some 42 ∧
    getFromCache (some (saveToCache (42 : Nat) 0)) 120000 = none :=
  ⟨(getFromCache_ttl 42 0 30000).1.mpr (by decide),
   (getFromCache_ttl 42 0 120000).2.1 (by decide)⟩

/-! ## Theorems about the color-scheme hook -/

/-- C9: the module-level `useColorScheme` hook returns the fixed value
`'light'` for every device color scheme (`'light'`, `'dark'` or `null`):
its result is independent of the device setting. -/
theorem useColorScheme_constantLight (deviceScheme : Option ColorScheme) :
    useColorScheme deviceScheme = ColorScheme.light := rfl

/-! ## Theorems about normalization -/

/-- C6 (amended): the per-record normalization is idempotent, and the
normalized record always exposes the uppercase casing form of each field
(populated from the lowercase form when the uppercase key is absent);
the lowercase forms are passed through unchanged, not synthesized. -/
theorem normalizeItem_idempotent (item : ActivityRec) :
    normalizeItem (normalizeItem item) = normalizeItem item ∧
    ((normalizeItem item).Activity.isSome ∧ (normalizeItem item).Category.isSome ∧
     (normalizeItem item).Date.isSome ∧ (normalizeItem item).Start_Time.isSome ∧
     (normalizeItem item).End_Time.isSome ∧ (normalizeItem item).Notes.isSome ∧
     (normalizeItem item).Points.isSome ∧ (normalizeItem item).Tags.isSome ∧
     (normalizeItem item).activity_id.isSome) ∧
    (normalizeItem item).activity = item.activity := by
  refine ⟨?_, ⟨rfl, rfl, rfl, rfl, rfl, rfl, rfl, rfl, rfl⟩, rfl⟩
  simp [normalizeItem]

/-- Counterexample to C6 as stated: for a record arriving with only
uppercase keys, the normalized record does not expose the lowercase
casing form of the activity field (it stays absent), so normalization
does not expose both casing forms of each field. -/
theorem normalizeItem_not_both_forms :
    (normalizeItem upperOnlyItem).Activity = some (JSVal.str "Running") ∧
    (normalizeItem upperOnlyItem).activity = none :=
  ⟨rfl, rfl⟩

/-! ## Theorems about filtering -/

/-- An early-return chain of boolean stages equals the conjunction of
the stages, with a guarded stage passing when its guard is off or its
test hits. -/
theorem passChain_eq : ∀ b1 b2 b3 b4 b5 b6 b7 b8 b9 b10 : Bool,
    (if !b1 then false
     else if !b2 && !b3 then false
     else if !b4 && !b5 then false
     else if !b6 && !b7 then false
     else if !b8 then false
     else if !b9 then false
     else if !b10 then false
     else true) =
      (b1 && (b2 || b3) && (b4 || b5) && (b6 || b7) && b8 && b9 && b10) := by
  decide

/-- The early-return chain of `activityPasses` equals the conjunction of
the required-fields check and the six filter-dimension predicates. -/
theorem activityPasses_eq (q : String) (f : Filters) (a : ActivityRec) :
    activityPasses q f a =
      (requiredFieldsOk a && matchesSearch q a && matchesCategories f a &&
       matchesActivitiesSel f a && matchesDateRange f a && matchesMinPoints f a &&
       matchesTags f a) := by
  rw [activityPasses, matchesSearch, matchesCategories, matchesActivitiesSel]
  simp only [bne]
  exact passChain_eq (requiredFieldsOk a) (q == "") (searchHit q a) (f.categories.isEmpty)
    (categoryHit f a) (f.activities.isEmpty) (activityHit f a) (matchesDateRange f a)
    (matchesMinPoints f a) (matchesTags f a)

/-- Counterexample to C2 as stated: with the empty filter set and an
empty query, a record lacking the basic required fields is still
dropped, so the filter is not the identity on every list. -/
theorem filteredActivities_empty_not_identity :
    filteredActivities "" emptyFilters [blankRec] = [] ∧
    ([] : List ActivityRec) ≠ [blankRec] := by
  constructor
  · rfl
  · intro h
    exact absurd h (by simp)

/-- C2 (amended): with an empty filter set and an empty search query the
filter keeps every record that has the basic required fields (a truthy
activity name and category in either casing); on a list of such records
it is the identity. -/
theorem filteredActivities_empty_identity (A : List ActivityRec)
    (h : ∀ a ∈ A, requiredFieldsOk a = true) :
    filteredActivities "" emptyFilters A = A := by
  rw [filteredActivities, List.filter_eq_self]
  intro a ha
  rw [activityPasses_eq]
  simp [h a ha, matchesSearch, matchesCategories, matchesActivitiesSel, matchesDateRange,
    matchesMinPoints, matchesTags, emptyFilters]

/-- Concrete run of `filteredActivities_empty_identity` on a singleton
list whose record has both required fields. -/
theorem filteredActivities_empty_identity_witness :
    filteredActivities "" emptyFilters [fitRec] = [fitRec] :=
  filteredActivities_empty_identity [fitRec] (by decide)

/-- C4: for every text query, structured filter set and activity list,
the filtered result is a subsequence of the input, and every returned
record satisfies each active filter dimension: the text search, the
categories / activities / tags multi-selects (each satisfied by matching
at least one selected value), the date range and the minimum points. -/
theorem filteredActivities_sound (q : String) (f : Filters) (A : List ActivityRec) :
    (filteredActivities q f A).Sublist A ∧
    ∀ a ∈ filteredActivities q f A,
      requiredFieldsOk a = true ∧ matchesSearch q a = true ∧
      matchesCategories f a = true ∧ matchesActivitiesSel f a = true ∧
      matchesDateRange f a = true ∧ matchesMinPoints f a = true ∧
      matchesTags f a = true := by
  refine ⟨List.filter_sublist _, ?_⟩
  intro a ha
  have hpass : activityPasses q f a = true := List.of_mem_filter ha
  rw [activityPasses_eq] at hpass
  simp only [Bool.and_eq_true] at hpass
  exact ⟨hpass.1.1.1.1.1.1, hpass.1.1.1.1.1.2, hpass.1.1.1.1.2, hpass.1.1.1.2,
    hpass.1.1.2, hpass.1.2, hpass.2⟩

/-- Concrete run of `filteredActivities_sound`: with a category
multi-select of two values and a minimum-points bound, the sample record
returned by the filter satisfies every active dimension. -/
theorem filteredActivities_sound_witness :
    matchesCategories
        { categories := ["Fitness", "Work"], activities := [], tags := [],
          dateRange := none, minPoints := some 5 } fitRec = true ∧
    matchesMinPoints
        { categories := ["Fitness", "Work"], activities := [], tags := [],
          dateRange := none, minPoints := some 5 } fitRec = true :=
  have h := (filteredActivities_sound ""
    { categories := ["Fitness", "Work"], activities := [], tags := [],
      dateRange := none, minPoints := some 5 } [fitRec]).2 fitRec (by decide)
  ⟨h.2.2.1, h.2.2.2.2.2.1⟩

/-! ## Theorems about sorting -/

/-- A numeric embedded value is some `num`. -/
theorem isNum_exists (v : JSVal) (h : v.isNum = true) : ∃ n, v = JSVal.num n := by
  cases v
  case num n => exact ⟨n, rfl⟩
  all_goals simp [JSVal.isNum] at h

/-- Code-point comparison is total. -/
theorem charListCmp_total : ∀ x y : List Char, charListCmp x y ≤ 0 ∨ charListCmp y x ≤ 0
  | [], [] => Or.inl (by simp [charListCmp])
  | [], _ :: _ => Or.inl (by simp [charListCmp])
  | _ :: _, [] => Or.inr (by simp [charListCmp])
  | a :: as, b :: bs => by
    by_cases hab : a.toNat < b.toNat
    · exact Or.inl (by simp [charListCmp, hab])
    · by_cases hba : b.toNat < a.toNat
      · exact Or.inr (by simp [charListCmp, hba])
      · rcases charListCmp_total as bs with h | h
        · refine Or.inl ?_
          simpa [charListCmp, hab, hba] using h
        · refine Or.inr ?_
          simpa [charListCmp, hab, hba] using h

/-- Code-point comparison is transitive on the "not greater" side. -/
theorem charListCmp_trans : ∀ x y z : List Char,
    charListCmp x y ≤ 0 → charListCmp y z ≤ 0 → charListCmp x z ≤ 0
  | [], _, [] => fun _ _ => by simp [charListCmp]
  | [], _, _ :: _ => fun _ _ => by simp [charListCmp]
  | _ :: _, [], _ => fun h1 _ => by simp [charListCmp] at h1
  | _ :: _, _ :: _, [] => fun _ h2 => by simp [charListCmp] at h2
  | a :: as, b :: bs, c :: cs => fun h1 h2 => by
    simp only [charListCmp] at h1 h2 ⊢
    by_cases hab : a.toNat < b.toNat
    · by_cases hbc : b.toNat < c.toNat
      · have hac : a.toNat < c.toNat := by omega
        simp [hac]
      · by_cases hcb : c.toNat < b.toNat
        · rw [if_neg hbc, if_pos hcb] at h2
          exact absurd h2 (by omega)
        · have hac : a.toNat < c.toNat := by omega
          simp [hac]
    · by_cases hba : b.toNat < a.toNat
      · rw [if_neg hab, if_pos hba] at h1
        exact absurd h1 (by omega)
      · rw [if_neg hab, if_neg hba] at h1
        by_cases hbc : b.toNat < c.toNat
        · have hac : a.toNat < c.toNat := by omega
          simp [hac]
        · by_cases hcb : c.toNat < b.toNat
          · rw [if_neg hbc, if_pos hcb] at h2
            exact absurd h2 (by omega)
          · rw [if_neg hbc, if_neg hcb] at h2
            have hac : ¬ a.toNat < c.toNat := by omega
            have hca : ¬ c.toNat < a.toNat := by omega
            rw [if_neg hac, if_neg hca]
            exact charListCmp_trans as bs cs h1 h2

/-- The comparator of `sortActivities`, on records whose date keys are
numbers: not-greater means a strictly newer date or a date tie broken by
the start-time comparison. -/
theorem sortCmp_le_iff (a b : ActivityRec) (nA nB : Int)
    (ha : dateKeyJS a = JSVal.num nA) (hb : dateKeyJS b = JSVal.num nB) :
    sortCmp a b ≤ 0 ↔
      (nB < nA ∨ (nA = nB ∧ localeCompare (startTimeStr a) (startTimeStr b) ≤ 0)) := by
  simp only [sortCmp, ha, hb]
  by_cases h : nB - nA = 0
  · rw [if_neg (show ¬ (nB - nA ≠ 0) from fun hc => hc h)]
    constructor
    · intro hc
      refine Or.inr ⟨by omega, ?_⟩
      simpa using hc
    · rintro (hlt | ⟨_, hc⟩)
      · omega
      · simpa using hc
  · rw [if_pos h]
    constructor
    · intro hle
      exact Or.inl (by omega)
    · rintro (hlt | ⟨heq, _⟩)
      · omega
      · omega

/-- C5: `sortActivities` permutes its input, and whenever every record's
date key is an actual number (its `Date` field absent, falsy, a
timestamp, or a parseable date string) the output is ordered descending
by date, with records sharing a date ordered ascending by the code-point
comparison of their start-time strings. -/
theorem sortActivities_sorted (A : List ActivityRec)
    (hdates : ∀ x ∈ A, (dateKeyJS x).isNum = true) :
    (sortActivities A).Perm A ∧
    (sortActivities A).Pairwise (fun a b =>
      jsLt (dateKeyJS b) (dateKeyJS a) = true ∨
      (dateKeyJS a = dateKeyJS b ∧
        localeCompare (startTimeStr a) (startTimeStr b) ≤ 0)) := by
  have hkey : ∀ x : {r : ActivityRec // r ∈ A}, ∃ n, dateKeyJS x.1 = JSVal.num n :=
    fun x => isNum_exists _ (hdates x.1 x.2)
  constructor
  · exact List.mergeSort_perm A _
  · have htrans : ∀ x y z : {r : ActivityRec // r ∈ A},
        attachLe A x y → attachLe A y z → attachLe A x z := by
      intro x y z hxy hyz
      obtain ⟨nx, hx⟩ := hkey x
      obtain ⟨ny, hy⟩ := hkey y
      obtain ⟨nz, hz⟩ := hkey z
      have hxy' := (sortCmp_le_iff x.1 y.1 nx ny hx hy).mp (by simpa [attachLe] using hxy)
      have hyz' := (sortCmp_le_iff y.1 z.1 ny nz hy hz).mp (by simpa [attachLe] using hyz)
      have hgoal : sortCmp x.1 z.1 ≤ 0 := by
        rw [sortCmp_le_iff x.1 z.1 nx nz hx hz]
        rcases hxy' with hlt | ⟨heq, hcmp⟩ <;> rcases hyz' with hlt2 | ⟨heq2, hcmp2⟩
        · exact Or.inl (by omega)
        · exact Or.inl (by omega)
        · exact Or.inl (by omega)
        · exact Or.inr ⟨by omega, charListCmp_trans _ _ _ hcmp hcmp2⟩
      simpa [attachLe] using hgoal
    have htotal : ∀ x y : {r : ActivityRec // r ∈ A},
        attachLe A x y || attachLe A y x := by
      intro x y
      obtain ⟨nx, hx⟩ := hkey x
      obtain ⟨ny, hy⟩ := hkey y
      rcases charListCmp_total (startTimeStr x.1).toList (startTimeStr y.1).toList with h | h
      · by_cases hlt : ny < nx
        · have : sortCmp x.1 y.1 ≤ 0 := (sortCmp_le_iff x.1 y.1 nx ny hx hy).mpr (Or.inl hlt)
          simp [attachLe, this]
        · by_cases heq : nx = ny
          · have : sortCmp x.1 y.1 ≤ 0 :=
              (sortCmp_le_iff x.1 y.1 nx ny hx hy).mpr (Or.inr ⟨heq, h⟩)
            simp [attachLe, this]
          · have : sortCmp y.1 x.1 ≤ 0 :=
              (sortCmp_le_iff y.1 x.1 ny nx hy hx).mpr (Or.inl (by omega))
            simp [attachLe, this]
      · by_cases hlt : ny < nx
        · have : sortCmp x.1 y.1 ≤ 0 := (sortCmp_le_iff x.1 y.1 nx ny hx hy).mpr (Or.inl hlt)
          simp [attachLe, this]
        · by_cases heq : ny = nx
          · have : sortCmp y.1 x.1 ≤ 0 :=
              (sortCmp_le_iff y.1 x.1 ny nx hy hx).mpr (Or.inr ⟨heq, h⟩)
            simp [attachLe, this]
          · have : sortCmp y.1 x.1 ≤ 0 :=
              (sortCmp_le_iff y.1 x.1 ny nx hy hx).mpr (Or.inl (by omega))
            simp [attachLe, this]
    have hsorted := List.sorted_mergeSort htrans htotal A.attach
    have hmap : (A.attach.mergeSort (attachLe A)).map Subtype.val =
        (A.attach.map Subtype.val).mergeSort (fun a b => sortCmp a b ≤ 0) :=
      List.map_mergeSort (fun x _ y _ => rfl)
    rw [List.attach_map_subtype_val] at hmap
    have hgoal : ((A.attach.mergeSort (attachLe A)).map Subtype.val).Pairwise
        (fun a b =>
          jsLt (dateKeyJS b) (dateKeyJS a) = true ∨
          (dateKeyJS a = dateKeyJS b ∧
            localeCompare (startTimeStr a) (startTimeStr b) ≤ 0)) := by
      rw [List.pairwise_map]
      refine hsorted.imp ?_
      intro x y hxy
      obtain ⟨nx, hx⟩ := hkey x
      obtain ⟨ny, hy⟩ := hkey y
      have hle := (sortCmp_le_iff x.1 y.1 nx ny hx hy).mp (by simpa [attachLe] using hxy)
      rcases hle with hlt | ⟨heq, hcmp⟩
      · exact Or.inl (by simp [jsLt, hx, hy, hlt])
      · exact Or.inr ⟨by rw [hx, hy, heq], hcmp⟩
    rw [hmap] at hgoal
    exact hgoal

/-- Concrete run of `sortActivities_sorted` on three sample records:
the two later-dated records come first, morning start before evening
start, and the earlier-dated record last. -/
theorem sortActivities_sorted_witness :
    (sortActivities [earlierRec, eveningRec, morningRec]).Perm
        [earlierRec, eveningRec, morningRec] ∧
    (sortActivities [earlierRec, eveningRec, morningRec]).Pairwise (fun a b =>
      jsLt (dateKeyJS b) (dateKeyJS a) = true ∨
      (dateKeyJS a = dateKeyJS b ∧
        localeCompare (startTimeStr a) (startTimeStr b) ≤ 0)) :=
  sortActivities_sorted [earlierRec, eveningRec, morningRec] (by decide)

/-! ## Theorems about the chart data preparers -/

/-- C7 (amended): every chart point comes from an input record passing
the preparer's validity filter, so records failing it are omitted with
no interpolation or gap-filling.  `prepareMoodData` and
`prepareSleepHoursData` reject a target field that is `undefined`,
`null`, or coerces to `NaN`; `prepareSleepMoodData` rejects only
`undefined` and `NaN` fields — a `null` field passes its filter and is
coerced to `0`. -/
theorem chartPreparers_exclude (logs : List MoodLog) (p : MoodProp) :
    (∀ pt ∈ prepareMoodData logs p, ∃ log, log ∈ logs ∧
      log.get p ≠ JSVal.undef ∧ log.get p ≠ JSVal.null ∧
      isNaNv (toNumber (log.get p)) = false ∧
      pt = { x := JSVal.str log.date, y := numOrZero (log.get p),
             date := formatDate log.date }) ∧
    (∀ pt ∈ prepareSleepHoursData logs, ∃ log, log ∈ logs ∧
      log.sleep_hours ≠ JSVal.undef ∧ log.sleep_hours ≠ JSVal.null ∧
      isNaNv (toNumber log.sleep_hours) = false ∧
      pt = { x := JSVal.str log.date, y := numOrZero log.sleep_hours,
             date := formatDate log.date }) ∧
    (∀ pt ∈ prepareSleepMoodData logs, ∃ log, log ∈ logs ∧
      log.sleep_hours ≠ JSVal.undef ∧ log.mood_score ≠ JSVal.undef ∧
      isNaNv (toNumber log.sleep_hours) = false ∧
      isNaNv (toNumber log.mood_score) = false ∧
      pt = { x := JSVal.num (numOrZero log.sleep_hours), y := numOrZero log.mood_score,
             date := formatDate log.date }) := by
  refine ⟨?_, ?_, ?_⟩
  · intro pt hpt
    by_cases he : logs.isEmpty
    · simp [prepareMoodData, he] at hpt
    · rw [prepareMoodData, if_neg he] at hpt
      obtain ⟨log, hmem, heq⟩ := List.mem_map.mp hpt
      have hfil := List.mem_mergeSort.mp hmem
      have hmem2 := List.mem_filter.mp hfil
      have hq := hmem2.2
      simp only [validNumberField, Bool.and_eq_true, decide_eq_true_eq,
        Bool.not_eq_true'] at hq
      exact ⟨log, hmem2.1, hq.1.1, hq.1.2, hq.2, heq.symm⟩
  · intro pt hpt
    by_cases he : logs.isEmpty
    · simp [prepareSleepHoursData, he] at hpt
    · rw [prepareSleepHoursData, if_neg he] at hpt
      obtain ⟨log, hmem, heq⟩ := List.mem_map.mp hpt
      have hfil := List.mem_mergeSort.mp hmem
      have hmem2 := List.mem_filter.mp hfil
      have hq := hmem2.2
      simp only [validNumberField, Bool.and_eq_true, decide_eq_true_eq,
        Bool.not_eq_true'] at hq
      exact ⟨log, hmem2.1, hq.1.1, hq.1.2, hq.2, heq.symm⟩
  · intro pt hpt
    by_cases he : logs.isEmpty
    · simp [prepareSleepMoodData, he] at hpt
    · rw [prepareSleepMoodData, if_neg he] at hpt
      obtain ⟨log, hmem, heq⟩ := List.mem_map.mp hpt
      have hmem2 := List.mem_filter.mp hmem
      have hq := hmem2.2
      simp only [Bool.and_eq_true, decide_eq_true_eq, Bool.not_eq_true'] at hq
      exact ⟨log, hmem2.1, hq.1.1.1, hq.1.1.2, hq.1.2, hq.2, heq.symm⟩

/-- Counterexample to C7 as stated: a record whose `sleep_hours` arrived
as `null` is not excluded by `prepareSleepMoodData`; it contributes the
point `(0, 5)`. -/
theorem prepareSleepMoodData_null_included :
    prepareSleepMoodData [nullSleepLog] =
      [{ x := JSVal.num 0, y := 5, date := formatDate "2024-05-01" }] ∧
    prepareSleepMoodData [nullSleepLog] ≠ [] := by
  refine ⟨rfl, ?_⟩
  intro h
  rw [show prepareSleepMoodData [nullSleepLog] =
    [{ x := JSVal.num 0, y := 5, date := formatDate "2024-05-01" }] from rfl] at h
  exact absurd h (by simp)

/-- Concrete run of `chartPreparers_exclude` on `prepareSleepMoodData`
with a single well-formed log. -/
theorem chartPreparers_exclude_witness :
    ∃ log, log ∈ [goodLog] ∧
      log.sleep_hours ≠ JSVal.undef ∧ log.mood_score ≠ JSVal.undef ∧
      isNaNv (toNumber log.sleep_hours) = false ∧
      isNaNv (toNumber log.mood_score) = false ∧
      ({ x := JSVal.num 8, y := 7, date := formatDate "2024-05-02" } : ChartPoint) =
        { x := JSVal.num (numOrZero log.sleep_hours), y := numOrZero log.mood_score,
          date := formatDate log.date } :=
  (chartPreparers_exclude [goodLog] MoodProp.mood_score).2.2
    { x := JSVal.num 8, y := 7, date := formatDate "2024-05-02" } (by decide)

/-! ## Theorems about the points API error policy -/

/-- Counterexample to C8 as stated: on a response-shape mismatch (the
body parses but has no `total_points` member), `getTotalPoints` returns
that member's value — `undefined` — rather than the hard-coded fallback
`1250`. -/
theorem getTotalPoints_shape_mismatch :
    getTotalPoints
        (Except.ok (Response.mk 200 (Except.ok (Json.jobj [("message", Json.jstr "ok")])))) =
      none ∧
    (none : Option Json) ≠ some (Json.jnum 1250) := by
  refine ⟨rfl, ?_⟩
  intro h
  exact absurd h (by simp)

/-- C8 (amended): the read operations never throw — `getTotalPoints`
returns `1250` on a thrown error (network failure, parse failure, or
member access on a `null` body) but simply returns the raw
`total_points` member of any parsed object (ignoring the HTTP status),
and `getAvailableRewards` returns the `rewards` member when it is an
array and the mock list on every thrown error or shape mismatch; the
write operation `purchaseReward` propagates thrown errors to its caller
and returns the parsed body otherwise. -/
theorem pointsApi_error_policy :
    (∀ e : String, getTotalPoints (Except.error e) = some (Json.jnum 1250)) ∧
    (∀ (st : Nat) (e : String),
      getTotalPoints (Except.ok { status := st, body := Except.error e }) =
        some (Json.jnum 1250)) ∧
    (∀ (st : Nat) (fields : List (String × Json)),
      getTotalPoints (Except.ok { status := st, body := Except.ok (Json.jobj fields) }) =
        lookupField fields "total_points") ∧
    (∀ e : String, getAvailableRewards (Except.error e) = mockRewards) ∧
    (∀ (st : Nat) (e : String),
      getAvailableRewards (Except.ok { status := st, body := Except.error e }) =
        mockRewards) ∧
    (∀ (st : Nat) (fields : List (String × Json)) (rewards : List Json),
      lookupField fields "rewards" = some (Json.jarr rewards) →
      getAvailableRewards (Except.ok { status := st, body := Except.ok (Json.jobj fields) }) =
        Json.jarr rewards) ∧
    (∀ (st : Nat) (fields : List (String × Json)),
      lookupField fields "rewards" = none →
      getAvailableRewards (Except.ok { status := st, body := Except.ok (Json.jobj fields) }) =
        mockRewards) ∧
    (∀ e : String, purchaseReward (Except.error e) = Except.error e) ∧
    (∀ (st : Nat) (e : String),
      purchaseReward (Except.ok { status := st, body := Except.error e }) =
        Except.error e) ∧
    (∀ (st : Nat) (data : Json),
      purchaseReward (Except.ok { status := st, body := Except.ok data }) =
        Except.ok data) := by
  refine ⟨fun e => rfl, fun st e => rfl, fun st fields => rfl, fun e => rfl,
    fun st e => rfl, ?_, ?_, fun e => rfl, fun st e => rfl, fun st data => rfl⟩
  · intro st fields rewards h
    simp [getAvailableRewards, h]
  · intro st fields h
    simp [getAvailableRewards, h]

/-- Concrete runs of `pointsApi_error_policy`: a well-shaped rewards
body is passed through, and a network error is re-thrown by
`purchaseReward`. -/
theorem pointsApi_error_policy_witness :
    getAvailableRewards
        (Except.ok
          (Response.mk 200 (Except.ok (Json.jobj [("rewards", Json.jarr [Json.jnum 1])])))) =
      Json.jarr [Json.jnum 1] ∧
    purchaseReward (Except.error "network down") = Except.error "network down" := by
  obtain ⟨h1, h2, h3, h4, h5, h6, h7, h8, h9, h10⟩ := pointsApi_error_policy
  exact ⟨h6 200 [("rewards", Json.jarr [Json.jnum 1])] [Json.jnum 1] rfl,
    h8 "network down"⟩

end Accountability
